import Mathlib

/-!
Verification of the zaplog package (level-partitioned sink router and logger
facade) against its natural-language specification.

The embedding follows the Go source:
  * `src/log/zap/level_enabler.go` — `GetLevels`, `levelAndAbove.EnableLevels`;
  * the options file — `logOptions`, `defaultLogOptions`, the `With*` option
    constructors;
  * `src/log/zap/logger.go` — `NewLogger`, `InitLogger`,
    `AtomicSetLoggerLevel`, `Sync`.

Severity levels are zapcore levels: an integer type with Debug = -1 up to
Fatal = 5.  A Go `panic` during construction is modelled as `Option.none`.
External I/O (directory creation, rotating-file-writer creation) is modelled
by boolean oracles indexed by the path involved, and the process environment
by an explicit `podName` argument.
-/

namespace Zaplog

/-- zapcore.Level is an int8; Debug = -1 through Fatal = 5. -/
def DebugLevel : Int := -1

def InfoLevel : Int := 0

def WarnLevel : Int := 1

def ErrorLevel : Int := 2

def DPanicLevel : Int := 3

def PanicLevel : Int := 4

def FatalLevel : Int := 5

/-- `_minLevel = zapcore.DebugLevel` in level_enabler.go. -/
def minLevel : Int := DebugLevel

/-- `_maxLevel = zapcore.FatalLevel` in level_enabler.go. -/
def maxLevel : Int := FatalLevel

/-- The slice built by the loop body of `GetLevels`:
`enabledLevels[i] = lvl + zapcore.Level(i)` for `i < _maxLevel - lvl + 1`. -/
def levelsFrom (lvl : Int) : List Int :=
  (List.range (maxLevel - lvl + 1).toNat).map (fun (i : Nat) => lvl + (i : Int))

/-- `GetLevels` from level_enabler.go.  The Go function panics on an
out-of-range level; the panic is modelled as `none`. -/
def GetLevels (lvl : Int) : Option (List Int) :=
  if lvl < minLevel ∨ lvl > maxLevel then none
  else some (levelsFrom lvl)

/-- `levelAndAbove.EnableLevels` from level_enabler.go: for each index into
the level slice the loop takes a per-iteration copy `idx := i` and builds the
closure `func(lvl zapcore.Level) bool { return lvl == levels[idx] }`, keyed by
`levels[idx]`.  The map is modelled as an association list in slice order; the
panic of the inner `GetLevels` call surfaces as `none`. -/
def EnableLevels (l : Int) : Option (List (Int × (Int → Bool))) :=
  (GetLevels l).map fun levels =>
    (List.range levels.length).map fun i =>
      let idx := i
      (levels.getD idx 0, fun lvl => lvl == levels.getD idx 0)

/-- `logOptions` from the options file (the fields of the struct in src). -/
structure logOptions where
  serviceName : String
  logPath : String
  fileRotateMaxAge : Int
  fileRotationTime : Int
  logLevel : Int
  development : Bool
deriving Repr, DecidableEq

/-- `defaultLogOptions` from the options file. -/
def defaultLogOptions : logOptions :=
  { serviceName := ""
    logPath := ""
    logLevel := DebugLevel
    fileRotateMaxAge := 0
    fileRotationTime := 0
    development := false }

/-- A Go `Option` is an interface whose `apply` mutates the options struct;
each constructor below wraps a field update, so an option is a function on
`logOptions`. -/
abbrev LogOption := logOptions → logOptions

def WithServiceName (s : String) : LogOption :=
  fun o => { o with serviceName := s }

def WithLogPath (p : String) : LogOption :=
  fun o => { o with logPath := p }

def WithLogLevel (l : Int) : LogOption :=
  fun o => { o with logLevel := l }

def WithFileRotateMaxAge (d : Int) : LogOption :=
  fun o => { o with fileRotateMaxAge := d }

def WithFileRotationTime (d : Int) : LogOption :=
  fun o => { o with fileRotationTime := d }

def Development : LogOption :=
  fun o => { o with development := true }

/-- The option-application loop at the top of `NewLogger`:
`logOpts := defaultLogOptions; for i := range opts { opts[i].apply(&logOpts) }`.
The Go assignment copies the struct by value, so the fold starts from the
package constant each call. -/
def applyOptions (opts : List LogOption) : logOptions :=
  opts.foldl (fun acc f => f acc) defaultLogOptions

/-- The two encoders used by `NewLogger`: the colorized console encoder of the
development/empty-path branch and the JSON encoder of the production branch. -/
inductive EncoderKind
  | consoleColor
  | json
deriving Repr, DecidableEq

/-- An output destination: `os.Stderr`, or a rotating-file writer created by
`rotatelogs.New` from a path pattern. -/
inductive Destination
  | stderr
  | rotatingFile (pattern : String)
deriving Repr, DecidableEq

/-- One core as built by `NewLogger`: encoder, destination and level enabler.
The enabler takes the current value of the shared atomic level and the entry's
level: the console core's `zap.AtomicLevel` enabler reads the atomic cell,
while a production file core's `zap.LevelEnablerFunc` closure ignores it. -/
structure SinkCore where
  encoder : EncoderKind
  dest : Destination
  enabled : Int → Int → Bool

/-- Go's `filepath.Join` on the inputs used here: joins the non-empty elements
with the path separator (`Clean` is a no-op on the paths this package forms
from clean inputs and is omitted). -/
def filepathJoin (elems : List String) : String :=
  String.intercalate "/" (elems.filter (fun s => s != ""))

/-- `zapcore.Level.String()` for the seven named levels (the default branch
formats the raw value). -/
def levelString (l : Int) : String :=
  if l == DebugLevel then "debug"
  else if l == InfoLevel then "info"
  else if l == WarnLevel then "warn"
  else if l == ErrorLevel then "error"
  else if l == DPanicLevel then "dpanic"
  else if l == PanicLevel then "panic"
  else if l == FatalLevel then "fatal"
  else "Level(" ++ toString l ++ ")"

/-- The directory handed to `os.MkdirAll` in the production loop:
`filepath.Join(logOpts.logPath, podName, logOpts.serviceName)`. -/
def logDir (o : logOptions) (podName : String) : String :=
  filepathJoin [o.logPath, podName, o.serviceName]

/-- The rotating-file pattern for one level:
`filepath.Join(logOpts.logPath, podName, logOpts.serviceName,
level.String()+".%Y-%m-%d.log")`. -/
def filePattern (o : logOptions) (podName : String) (level : Int) : String :=
  filepathJoin [o.logPath, podName, o.serviceName,
    levelString level ++ ".%Y-%m-%d.log"]

/-- The production-branch loop of `NewLogger`: for each (level, enabler) pair,
`os.MkdirAll` then `rotatelogs.New`; failure of either panics (modelled
`none`), otherwise a JSON core gated by that pair's exact-match closure is
appended.  `mkdirOk` and `rotateOk` are oracles for the two external calls,
indexed by the directory and the pattern. -/
def buildFileCores (o : logOptions) (podName : String)
    (mkdirOk rotateOk : String → Bool) :
    List (Int × (Int → Bool)) → Option (List SinkCore)
  | [] => some []
  | (level, enabler) :: rest =>
    if mkdirOk (logDir o podName) then
      if rotateOk (filePattern o podName level) then
        (buildFileCores o podName mkdirOk rotateOk rest).map
          (fun cores =>
            { encoder := EncoderKind.json
              dest := Destination.rotatingFile (filePattern o podName level)
              enabled := fun _ lvl => enabler lvl } :: cores)
      else none
    else none

/-- The single core of the development/empty-path branch: colorized console
encoder to `os.Stderr`, gated by the shared `zap.AtomicLevel`, whose
`Enabled(lvl)` is `lvl >= current`. -/
def consoleCore : SinkCore :=
  { encoder := EncoderKind.consoleColor
    dest := Destination.stderr
    enabled := fun atomic lvl => decide (atomic ≤ lvl) }

/-- The branch structure of `NewLogger` (logger.go) after option application:
the list of cores handed to `zapcore.NewTee`, plus the initial value of the
returned atomic level.  `none` models a construction-time panic. -/
def NewLoggerCore (o : logOptions) (podName : String)
    (mkdirOk rotateOk : String → Bool) : Option (List SinkCore × Int) :=
  let atomicLevel := o.logLevel
  if o.logPath == "" || o.development then
    some ([consoleCore], atomicLevel)
  else
    match EnableLevels atomicLevel with
    | none => none
    | some m =>
      (buildFileCores o podName mkdirOk rotateOk m).map (fun cs => (cs, atomicLevel))

/-- `NewLogger`: apply the supplied options in order to a copy of the package
defaults, then construct per the branch rule. -/
def NewLogger (opts : List LogOption) (podName : String)
    (mkdirOk rotateOk : String → Bool) : Option (List SinkCore × Int) :=
  NewLoggerCore (applyOptions opts) podName mkdirOk rotateOk

/-- The package-level globals of logger.go: `logger`, `sugaredLogger`, `once`
and `atomicLevel`.  The logger and the sugared logger are each represented by
the core list they are bound to (`logger.Sugar()` shares the same cores). -/
structure PackageState where
  onceDone : Bool
  logger : Option (List SinkCore)
  sugaredLogger : Option (List SinkCore)
  atomicLevel : Int

/-- `InitLogger`: `once.Do` around `NewLogger` plus `logger.Sugar()`.  `none`
models the construction panic escaping. -/
def InitLogger (opts : List LogOption) (podName : String)
    (mkdirOk rotateOk : String → Bool) (st : PackageState) :
    Option PackageState :=
  if st.onceDone then some st
  else
    match NewLogger opts podName mkdirOk rotateOk with
    | none => none
    | some (cores, lvl) =>
      some { onceDone := true
             logger := some cores
             sugaredLogger := some cores
             atomicLevel := lvl }

/-- `AtomicSetLoggerLevel`: `atomicLevel.SetLevel(lvl)` — replaces the value
of the shared atomic cell and touches nothing else. -/
def AtomicSetLoggerLevel (st : PackageState) (lvl : Int) : PackageState :=
  { st with atomicLevel := lvl }

/-- Whether a core emits an entry of severity `lvl`: `zapcore.Tee` hands every
entry to each core whose enabler accepts it, the enabler being evaluated
against the current value of the shared atomic cell. -/
def coreEmits (c : SinkCore) (atomic lvl : Int) : Bool :=
  c.enabled atomic lvl

/-- World for the two flushes inside `Sync`: each underlying flush's error
result, plus call counters for the two flush paths. -/
structure SyncWorld where
  loggerErr : Option String
  sugaredErr : Option String
  loggerCalls : Nat
  sugaredCalls : Nat
deriving Repr, DecidableEq

/-- `logger.Sync()` as an operation on the world. -/
def loggerSyncOp (w : SyncWorld) : Option String × SyncWorld :=
  (w.loggerErr, { w with loggerCalls := w.loggerCalls + 1 })

/-- `sugaredLogger.Sync()` as an operation on the world. -/
def sugaredSyncOp (w : SyncWorld) : Option String × SyncWorld :=
  (w.sugaredErr, { w with sugaredCalls := w.sugaredCalls + 1 })

/-- `Sync` from logger.go, line for line: `err := logger.Sync(); if err != nil
{ sugaredLogger.Sync(); return err }; err = sugaredLogger.Sync(); return
err`. -/
def Sync (w : SyncWorld) : Option String × SyncWorld :=
  let r1 := loggerSyncOp w
  match r1.1 with
  | some e =>
    let r2 := sugaredSyncOp r1.2
    (some e, r2.2)
  | none => sugaredSyncOp r1.2

theorem levelsFrom_length (lvl : Int) :
    (levelsFrom lvl).length = (maxLevel - lvl + 1).toNat := by
  rw [levelsFrom, List.length_map, List.length_range]

theorem levelsFrom_getD (lvl : Int) (i : Nat) (hi : i < (levelsFrom lvl).length) :
    (levelsFrom lvl).getD i 0 = lvl + i := by
  have h1 : (levelsFrom lvl)[i]? = some (lvl + i) := by
    rw [List.getElem?_eq_getElem hi]
    simp only [levelsFrom, List.getElem_map, List.getElem_range]
  simp [List.getD, h1]

theorem mem_levelsFrom (lvl s : Int) (h : lvl ≤ maxLevel) :
    s ∈ levelsFrom lvl ↔ lvl ≤ s ∧ s ≤ maxLevel := by
  simp only [levelsFrom, List.mem_map, List.mem_range]
  simp only [maxLevel, FatalLevel] at *
  constructor
  · rintro ⟨i, hi, rfl⟩
    omega
  · intro hs
    exact ⟨(s - lvl).toNat, by omega, by omega⟩

/-- Claim C1: for every threshold in [Debug, Fatal], `EnableLevels` returns a
mapping whose key set is exactly the severities at or above the threshold, and
each key's predicate accepts exactly its own level — true on the key itself,
false on every other severity, including severities greater than the key
(each closure captures a per-iteration copy of the index). -/
theorem EnableLevels_exact_match (t : Int)
    (h1 : minLevel ≤ t) (h2 : t ≤ maxLevel) :
    ∃ m, EnableLevels t = some m ∧
      (∀ s : Int, (∃ p, (s, p) ∈ m) ↔ (t ≤ s ∧ s ≤ maxLevel)) ∧
      (∀ s p, (s, p) ∈ m → p s = true ∧ ∀ lvl, lvl ≠ s → p lvl = false) := by
  have hv : ¬ (t < minLevel ∨ t > maxLevel) := by
    simp only [minLevel, maxLevel, DebugLevel, FatalLevel] at h1 h2 ⊢
    omega
  have hlenb : (levelsFrom t).length = (maxLevel - t + 1).toNat := levelsFrom_length t
  refine ⟨(List.range (levelsFrom t).length).map
      (fun i => ((levelsFrom t).getD i 0, fun lvl => lvl == (levelsFrom t).getD i 0)),
    ?_, ?_, ?_⟩
  · unfold EnableLevels GetLevels
    rw [if_neg hv]
    rfl
  · intro s
    constructor
    · rintro ⟨p, hp⟩
      simp only [List.mem_map, List.mem_range] at hp
      obtain ⟨i, hi, hpair⟩ := hp
      have hs : (levelsFrom t).getD i 0 = s := congrArg Prod.fst hpair
      rw [levelsFrom_getD t i hi] at hs
      rw [hlenb] at hi
      simp only [maxLevel, FatalLevel] at hi ⊢
      omega
    · intro hs
      simp only [maxLevel, FatalLevel] at hs h2
      have hib : (s - t).toNat < (levelsFrom t).length := by
        rw [hlenb]
        simp only [maxLevel, FatalLevel]
        omega
      refine ⟨fun lvl => lvl == (levelsFrom t).getD ((s - t).toNat) 0, ?_⟩
      simp only [List.mem_map, List.mem_range]
      refine ⟨(s - t).toNat, hib, ?_⟩
      have hgd : (levelsFrom t).getD ((s - t).toNat) 0 = s := by
        rw [levelsFrom_getD t _ hib]
        omega
      rw [hgd]
  · intro s p hp
    simp only [List.mem_map, List.mem_range] at hp
    obtain ⟨i, hi, hpair⟩ := hp
    have hs : (levelsFrom t).getD i 0 = s := congrArg Prod.fst hpair
    have hpf : (fun lvl => lvl == (levelsFrom t).getD i 0) = p :=
      congrArg Prod.snd hpair
    constructor
    · rw [← hpf, hs]
      simp
    · intro lvl hlvl
      rw [← hpf, hs]
      simp [hlvl]

/-- Claim C1 witness at threshold Info. -/
theorem EnableLevels_exact_match_witness :
    ∃ m, EnableLevels InfoLevel = some m ∧
      (∀ s : Int, (∃ p, (s, p) ∈ m) ↔ (InfoLevel ≤ s ∧ s ≤ maxLevel)) ∧
      (∀ s p, (s, p) ∈ m → p s = true ∧ ∀ lvl, lvl ≠ s → p lvl = false) :=
  EnableLevels_exact_match InfoLevel (by decide) (by decide)

/-- Claim C2: for thresholds strictly below Debug or strictly above Fatal,
`GetLevels` (and hence `EnableLevels`) fails fast — panics, modelled `none` —
rather than returning a mapping; for every threshold in [Debug, Fatal] it does
not fail. -/
theorem GetLevels_fails_iff_invalid (t : Int) :
    (GetLevels t = none ↔ (t < minLevel ∨ t > maxLevel)) ∧
    (EnableLevels t = none ↔ (t < minLevel ∨ t > maxLevel)) := by
  have hbase : GetLevels t = none ↔ (t < minLevel ∨ t > maxLevel) := by
    constructor
    · intro h
      by_contra hc
      simp [GetLevels, hc] at h
    · intro h
      simp [GetLevels, h]
  refine ⟨hbase, ?_⟩
  rw [← hbase]
  simp [EnableLevels, Option.map_eq_none']

/-- Claim C3: for every valid threshold `t`, `GetLevels t` returns the list
`[t, t+1, …, Fatal]`: length `Fatal − t + 1`, entry `i` equal to `t + i`,
strictly ascending, first entry `t`, last entry Fatal, non-empty, and of
length at most the enum size 7. -/
theorem GetLevels_contiguous (t : Int)
    (h1 : minLevel ≤ t) (h2 : t ≤ maxLevel) :
    ∃ l, GetLevels t = some l ∧
      l.length = (maxLevel - t + 1).toNat ∧
      (∀ i : Nat, i < l.length → l.getD i 0 = t + i) ∧
      (∀ i j : Nat, i < j → j < l.length → l.getD i 0 < l.getD j 0) ∧
      l.getD 0 0 = t ∧
      l.getD (l.length - 1) 0 = maxLevel ∧
      l ≠ [] ∧ l.length ≤ 7 := by
  have hv : ¬ (t < minLevel ∨ t > maxLevel) := by
    simp only [minLevel, maxLevel, DebugLevel, FatalLevel] at h1 h2 ⊢
    omega
  have hlen := levelsFrom_length t
  have hpos : 0 < (levelsFrom t).length := by
    rw [hlen]
    simp only [maxLevel, FatalLevel] at h2 ⊢
    omega
  refine ⟨levelsFrom t, by rw [GetLevels, if_neg hv], hlen, ?_, ?_, ?_, ?_, ?_, ?_⟩
  · intro i hi
    exact levelsFrom_getD t i hi
  · intro i j hij hj
    rw [levelsFrom_getD t i (by omega), levelsFrom_getD t j hj]
    omega
  · rw [levelsFrom_getD t 0 hpos]
    omega
  · rw [levelsFrom_getD t _ (by omega)]
    rw [hlen]
    simp only [maxLevel, FatalLevel] at h2 ⊢
    omega
  · exact List.ne_nil_of_length_pos hpos
  · rw [hlen]
    simp only [maxLevel, FatalLevel, minLevel, DebugLevel] at h1 ⊢
    omega

/-- Claim C3 witness at threshold Debug (the full 7-level enumeration). -/
theorem GetLevels_contiguous_witness :
    ∃ l, GetLevels DebugLevel = some l ∧
      l.length = (maxLevel - DebugLevel + 1).toNat ∧
      (∀ i : Nat, i < l.length → l.getD i 0 = DebugLevel + i) ∧
      (∀ i j : Nat, i < j → j < l.length → l.getD i 0 < l.getD j 0) ∧
      l.getD 0 0 = DebugLevel ∧
      l.getD (l.length - 1) 0 = maxLevel ∧
      l ≠ [] ∧ l.length ≤ 7 :=
  GetLevels_contiguous DebugLevel (by decide) (by decide)

theorem GetLevels_valid (t : Int) (h1 : minLevel ≤ t) (h2 : t ≤ maxLevel) :
    GetLevels t = some (levelsFrom t) := by
  unfold GetLevels
  rw [if_neg]
  simp only [minLevel, maxLevel, DebugLevel, FatalLevel] at h1 h2 ⊢
  omega

theorem GetLevels_some_inv (t : Int) (levels : List Int)
    (h : GetLevels t = some levels) :
    minLevel ≤ t ∧ t ≤ maxLevel ∧ levels = levelsFrom t := by
  unfold GetLevels at h
  by_cases hc : t < minLevel ∨ t > maxLevel
  · rw [if_pos hc] at h
    cases h
  · rw [if_neg hc] at h
    refine ⟨by omega, by omega, (Option.some.inj h).symm⟩

theorem EnableLevels_some_levels (t : Int) (m : List (Int × (Int → Bool)))
    (h : EnableLevels t = some m) :
    ∃ levels, GetLevels t = some levels ∧
      m = (List.range levels.length).map
        (fun i => (levels.getD i 0, fun lvl => lvl == levels.getD i 0)) := by
  unfold EnableLevels at h
  cases hg : GetLevels t with
  | none =>
    rw [hg] at h
    cases h
  | some levels =>
    rw [hg] at h
    refine ⟨levels, rfl, ?_⟩
    exact (Option.some.inj h).symm

theorem EnableLevels_mem_inv (t : Int) (m : List (Int × (Int → Bool)))
    (h : EnableLevels t = some m) (s : Int) (p : Int → Bool)
    (hmem : (s, p) ∈ m) :
    t ≤ s ∧ s ≤ maxLevel ∧ ∀ lvl, p lvl = (lvl == s) := by
  obtain ⟨levels, hg, rfl⟩ := EnableLevels_some_levels t m h
  obtain ⟨hv1, hv2, rfl⟩ := GetLevels_some_inv t levels hg
  simp only [List.mem_map, List.mem_range] at hmem
  obtain ⟨i, hi, hpair⟩ := hmem
  have hs : (levelsFrom t).getD i 0 = s := congrArg Prod.fst hpair
  have hpf : (fun lvl => lvl == (levelsFrom t).getD i 0) = p :=
    congrArg Prod.snd hpair
  have hgd := levelsFrom_getD t i hi
  rw [hgd] at hs
  rw [levelsFrom_length] at hi
  refine ⟨?_, ?_, ?_⟩
  · simp only [maxLevel, FatalLevel] at hi ⊢
    omega
  · simp only [maxLevel, FatalLevel] at hi ⊢
    omega
  · intro lvl
    rw [← hpf, hgd, hs]

theorem EnableLevels_some_ne_nil (t : Int) (m : List (Int × (Int → Bool)))
    (h : EnableLevels t = some m) : m ≠ [] := by
  obtain ⟨levels, hg, rfl⟩ := EnableLevels_some_levels t m h
  obtain ⟨hv1, hv2, rfl⟩ := GetLevels_some_inv t levels hg
  intro hnil
  have hlen : ((List.range (levelsFrom t).length).map
      (fun i => ((levelsFrom t).getD i 0,
        fun lvl => lvl == (levelsFrom t).getD i 0))).length = 0 := by
    rw [hnil]
    rfl
  simp only [List.length_map, List.length_range, levelsFrom_length] at hlen
  simp only [minLevel, maxLevel, DebugLevel, FatalLevel] at hv1 hv2 hlen
  omega

theorem buildFileCores_allOk (o : logOptions) (podName : String)
    (m : List (Int × (Int → Bool))) :
    buildFileCores o podName (fun _ => true) (fun _ => true) m =
      some (m.map (fun lp =>
        { encoder := EncoderKind.json
          dest := Destination.rotatingFile (filePattern o podName lp.1)
          enabled := fun _ lvl => lp.2 lvl })) := by
  induction m with
  | nil => rfl
  | cons hd tl ih =>
    obtain ⟨level, enabler⟩ := hd
    simp [buildFileCores, ih]

theorem buildFileCores_some_inv (o : logOptions) (podName : String)
    (mkdirOk rotateOk : String → Bool) (m : List (Int × (Int → Bool)))
    (cores : List SinkCore)
    (h : buildFileCores o podName mkdirOk rotateOk m = some cores) :
    (m ≠ [] → mkdirOk (logDir o podName) = true) ∧
    (∀ lp ∈ m, rotateOk (filePattern o podName lp.1) = true) ∧
    (∀ c ∈ cores, ∃ lp ∈ m,
      c = { encoder := EncoderKind.json
            dest := Destination.rotatingFile (filePattern o podName lp.1)
            enabled := fun _ lvl => lp.2 lvl }) := by
  induction m generalizing cores with
  | nil =>
    simp only [buildFileCores] at h
    have hc : cores = [] := (Option.some.inj h).symm
    subst hc
    simp
  | cons hd tl ih =>
    obtain ⟨level, enabler⟩ := hd
    simp only [buildFileCores] at h
    cases hmk : mkdirOk (logDir o podName) with
    | false =>
      rw [hmk] at h
      simp at h
    | true =>
      rw [hmk] at h
      simp only [if_true] at h
      cases hrot : rotateOk (filePattern o podName level) with
      | false =>
        rw [hrot] at h
        simp at h
      | true =>
        rw [hrot] at h
        simp only [if_true] at h
        obtain ⟨cs, hcs, hcons⟩ := Option.map_eq_some'.mp h
        obtain ⟨ihmk, ihrot, ihmem⟩ := ih cs hcs
        subst hcons
        refine ⟨fun _ => rfl, ?_, ?_⟩
        · intro lp hlp
          rcases List.mem_cons.mp hlp with hlp | hlp
          · rw [hlp]
            exact hrot
          · exact ihrot lp hlp
        · intro c hc
          rcases List.mem_cons.mp hc with hc | hc
          · exact ⟨(level, enabler), List.mem_cons_self _ _, hc⟩
          · obtain ⟨lp, hlp, hceq⟩ := ihmem c hc
            exact ⟨lp, List.mem_cons_of_mem _ hlp, hceq⟩

theorem NewLoggerCore_console_branch (o : logOptions) (podName : String)
    (mkdirOk rotateOk : String → Bool)
    (h : o.logPath = "" ∨ o.development = true) :
    NewLoggerCore o podName mkdirOk rotateOk =
      some ([consoleCore], o.logLevel) := by
  unfold NewLoggerCore
  have hb : (o.logPath == "" || o.development) = true := by
    rcases h with h | h
    · simp [h]
    · simp [h]
  rw [hb]
  simp

theorem NewLoggerCore_prod_inv (o : logOptions) (podName : String)
    (mkdirOk rotateOk : String → Bool) (cores : List SinkCore) (lvl0 : Int)
    (hp : o.logPath ≠ "") (hd : o.development = false)
    (h : NewLoggerCore o podName mkdirOk rotateOk = some (cores, lvl0)) :
    lvl0 = o.logLevel ∧ ∃ m, EnableLevels o.logLevel = some m ∧
      buildFileCores o podName mkdirOk rotateOk m = some cores := by
  unfold NewLoggerCore at h
  have hb : (o.logPath == "" || o.development) = false := by
    simp only [hd, Bool.or_false, beq_eq_false_iff_ne, ne_eq]
    exact hp
  rw [hb] at h
  simp only [Bool.false_eq_true, if_false] at h
  cases hEL : EnableLevels o.logLevel with
  | none =>
    rw [hEL] at h
    cases h
  | some m =>
    rw [hEL] at h
    obtain ⟨cs, hcs, heq⟩ := Option.map_eq_some'.mp h
    have h1 : cs = cores := congrArg Prod.fst heq
    have h2 : o.logLevel = lvl0 := congrArg Prod.snd heq
    subst h1
    exact ⟨h2.symm, m, rfl, hcs⟩

theorem NewLoggerCore_prod_allOk (o : logOptions)
    (podName : String) (hp : o.logPath ≠ "") (hd : o.development = false) :
    NewLoggerCore o podName (fun _ => true) (fun _ => true) =
      (EnableLevels o.logLevel).map (fun m =>
        (m.map (fun lp =>
          { encoder := EncoderKind.json
            dest := Destination.rotatingFile (filePattern o podName lp.1)
            enabled := fun _ lvl => lp.2 lvl }), o.logLevel)) := by
  unfold NewLoggerCore
  have hb : (o.logPath == "" || o.development) = false := by
    simp only [hd, Bool.or_false, beq_eq_false_iff_ne, ne_eq]
    exact hp
  rw [hb]
  simp only [Bool.false_eq_true, if_false]
  cases hEL : EnableLevels o.logLevel with
  | none => rfl
  | some m =>
    simp only [buildFileCores_allOk, Option.map_some']

theorem filepathJoin_empty_segment (a b c : String) :
    filepathJoin [a, "", b, c] = filepathJoin [a, b, c] := by
  simp [filepathJoin, List.filter_cons]

/-- Claim C4: with every external call succeeding, if the log path is empty or
development mode is set then `NewLogger` builds exactly one colorized console
core writing to stderr, gated at-or-above by the shared atomic level;
otherwise it calls the sink router at the configured minimum severity and
builds one JSON rotating-file core per returned (level, predicate) pair, each
gated by exactly that predicate, and tees together exactly those cores. -/
theorem NewLogger_branch_structure (o : logOptions) (podName : String) :
    ((o.logPath = "" ∨ o.development = true) →
      NewLoggerCore o podName (fun _ => true) (fun _ => true) =
        some ([consoleCore], o.logLevel) ∧
      consoleCore.encoder = EncoderKind.consoleColor ∧
      consoleCore.dest = Destination.stderr ∧
      (∀ atomic lvl, coreEmits consoleCore atomic lvl = decide (atomic ≤ lvl))) ∧
    (o.logPath ≠ "" → o.development = false →
      NewLoggerCore o podName (fun _ => true) (fun _ => true) =
        (EnableLevels o.logLevel).map (fun m =>
          (m.map (fun lp =>
            { encoder := EncoderKind.json
              dest := Destination.rotatingFile (filePattern o podName lp.1)
              enabled := fun _ lvl => lp.2 lvl }), o.logLevel))) := by
  constructor
  · intro h
    exact ⟨NewLoggerCore_console_branch o podName _ _ h, rfl, rfl,
      fun _ _ => rfl⟩
  · intro hp hd
    exact NewLoggerCore_prod_allOk o podName hp hd

/-- Claim C4 witness: the console branch at the default options and the
production branch at a concrete production configuration. -/
theorem NewLogger_branch_structure_witness :
    (NewLoggerCore defaultLogOptions "pod" (fun _ => true) (fun _ => true) =
        some ([consoleCore], defaultLogOptions.logLevel) ∧
      consoleCore.encoder = EncoderKind.consoleColor ∧
      consoleCore.dest = Destination.stderr ∧
      (∀ atomic lvl, coreEmits consoleCore atomic lvl = decide (atomic ≤ lvl))) ∧
    (NewLoggerCore
        (applyOptions [WithLogPath "/logs", WithServiceName "svc",
          WithLogLevel ErrorLevel]) "pod" (fun _ => true) (fun _ => true) =
      (EnableLevels (applyOptions [WithLogPath "/logs", WithServiceName "svc",
          WithLogLevel ErrorLevel]).logLevel).map (fun m =>
        (m.map (fun lp =>
          { encoder := EncoderKind.json
            dest := Destination.rotatingFile
              (filePattern (applyOptions [WithLogPath "/logs",
                WithServiceName "svc", WithLogLevel ErrorLevel]) "pod" lp.1)
            enabled := fun _ lvl => lp.2 lvl }),
          (applyOptions [WithLogPath "/logs", WithServiceName "svc",
            WithLogLevel ErrorLevel]).logLevel))) :=
  ⟨(NewLogger_branch_structure defaultLogOptions "pod").1 (Or.inl rfl),
   (NewLogger_branch_structure
      (applyOptions [WithLogPath "/logs", WithServiceName "svc",
        WithLogLevel ErrorLevel]) "pod").2 (by decide) rfl⟩

/-- Claim C5: `AtomicSetLoggerLevel` replaces the threshold observed by later
log calls and changes nothing else in the package state; each production-mode
file core's emission test is a function only of the level it captured at
construction (the same for every atomic value, equal to an exact match
against a fixed level), so file routing never changes after construction;
only the console core's gate follows the current atomic value. -/
theorem AtomicSetLoggerLevel_routing_frame (o : logOptions) (podName : String)
    (hp : o.logPath ≠ "") (hd : o.development = false)
    (h1 : minLevel ≤ o.logLevel) (h2 : o.logLevel ≤ maxLevel) :
    (∀ st newLvl,
      (AtomicSetLoggerLevel st newLvl).atomicLevel = newLvl ∧
      (AtomicSetLoggerLevel st newLvl).logger = st.logger ∧
      (AtomicSetLoggerLevel st newLvl).sugaredLogger = st.sugaredLogger) ∧
    (∃ cores, NewLoggerCore o podName (fun _ => true) (fun _ => true) =
        some (cores, o.logLevel) ∧
      ∀ c ∈ cores, ∃ s, ∀ atomic lvl, coreEmits c atomic lvl = (lvl == s)) ∧
    (∀ atomic lvl, coreEmits consoleCore atomic lvl = decide (atomic ≤ lvl)) := by
  refine ⟨fun st newLvl => ⟨rfl, rfl, rfl⟩, ?_, fun _ _ => rfl⟩
  have hEL : EnableLevels o.logLevel =
      some ((List.range (levelsFrom o.logLevel).length).map
        (fun i => ((levelsFrom o.logLevel).getD i 0,
          fun lvl => lvl == (levelsFrom o.logLevel).getD i 0))) := by
    unfold EnableLevels
    rw [GetLevels_valid o.logLevel h1 h2]
    rfl
  refine ⟨((List.range (levelsFrom o.logLevel).length).map
      (fun i => ((levelsFrom o.logLevel).getD i 0,
        fun lvl => lvl == (levelsFrom o.logLevel).getD i 0))).map
      (fun lp => (⟨EncoderKind.json,
        Destination.rotatingFile (filePattern o podName lp.1),
        fun _ lvl => lp.2 lvl⟩ : SinkCore)), ?_, ?_⟩
  · rw [NewLoggerCore_prod_allOk o podName hp hd, hEL]
    rfl
  · intro c hc
    obtain ⟨lp, hlp, hceq⟩ := List.mem_map.mp hc
    refine ⟨lp.1, fun atomic lvl => ?_⟩
    subst hceq
    simp only [List.mem_map, List.mem_range] at hlp
    obtain ⟨i, hi, hlpeq⟩ := hlp
    subst hlpeq
    rfl

/-- Claim C5 witness at a concrete production configuration. -/
theorem AtomicSetLoggerLevel_routing_frame_witness :
    (∀ st newLvl,
      (AtomicSetLoggerLevel st newLvl).atomicLevel = newLvl ∧
      (AtomicSetLoggerLevel st newLvl).logger = st.logger ∧
      (AtomicSetLoggerLevel st newLvl).sugaredLogger = st.sugaredLogger) ∧
    (∃ cores, NewLoggerCore
        (applyOptions [WithLogPath "/logs", WithServiceName "svc"]) "pod"
        (fun _ => true) (fun _ => true) =
        some (cores,
          (applyOptions [WithLogPath "/logs", WithServiceName "svc"]).logLevel) ∧
      ∀ c ∈ cores, ∃ s, ∀ atomic lvl, coreEmits c atomic lvl = (lvl == s)) ∧
    (∀ atomic lvl, coreEmits consoleCore atomic lvl = decide (atomic ≤ lvl)) :=
  AtomicSetLoggerLevel_routing_frame
    (applyOptions [WithLogPath "/logs", WithServiceName "svc"]) "pod"
    (by decide) rfl (by decide) (by decide)

/-- Claim C6: `Sync` flushes the structured logger, then always flushes the
sugared logger exactly once; if the first flush failed its error is returned,
otherwise the second flush's result is returned. -/
theorem Sync_flushes_both (w : SyncWorld) :
    (Sync w).2.loggerCalls = w.loggerCalls + 1 ∧
    (Sync w).2.sugaredCalls = w.sugaredCalls + 1 ∧
    (Sync w).1 = (match w.loggerErr with
      | some e => some e
      | none => w.sugaredErr) := by
  cases h : w.loggerErr <;>
    simp [Sync, loggerSyncOp, sugaredSyncOp, h]

/-- Claim C7: in production mode every core's destination is the rotating-file
pattern `logPath/podName/serviceName/levelName.date.log` for some enabled
level; with the pod environment variable absent (empty pod name) the pod
segment vanishes from the joined path and construction still succeeds. -/
theorem production_file_paths (o : logOptions) (podName : String)
    (hp : o.logPath ≠ "") (hd : o.development = false)
    (h1 : minLevel ≤ o.logLevel) (h2 : o.logLevel ≤ maxLevel) :
    ∃ cores,
      NewLoggerCore o podName (fun _ => true) (fun _ => true) =
        some (cores, o.logLevel) ∧
      (∀ c ∈ cores, ∃ s, o.logLevel ≤ s ∧ s ≤ maxLevel ∧
        c.dest = Destination.rotatingFile
          (filepathJoin [o.logPath, podName, o.serviceName,
            levelString s ++ ".%Y-%m-%d.log"])) ∧
      (podName = "" → ∀ c ∈ cores, ∃ s,
        c.dest = Destination.rotatingFile
          (filepathJoin [o.logPath, o.serviceName,
            levelString s ++ ".%Y-%m-%d.log"])) := by
  have hEL : EnableLevels o.logLevel =
      some ((List.range (levelsFrom o.logLevel).length).map
        (fun i => ((levelsFrom o.logLevel).getD i 0,
          fun lvl => lvl == (levelsFrom o.logLevel).getD i 0))) := by
    unfold EnableLevels
    rw [GetLevels_valid o.logLevel h1 h2]
    rfl
  have hmemkey : ∀ c ∈ ((List.range (levelsFrom o.logLevel).length).map
        (fun i => ((levelsFrom o.logLevel).getD i 0,
          fun lvl => lvl == (levelsFrom o.logLevel).getD i 0))).map
          (fun lp => (⟨EncoderKind.json,
            Destination.rotatingFile (filePattern o podName lp.1),
            fun _ lvl => lp.2 lvl⟩ : SinkCore)),
      ∃ s, o.logLevel ≤ s ∧ s ≤ maxLevel ∧
        c.dest = Destination.rotatingFile (filePattern o podName s) := by
    intro c hc
    obtain ⟨lp, hlp, hceq⟩ := List.mem_map.mp hc
    have hmem : (lp.1, lp.2) ∈ (List.range (levelsFrom o.logLevel).length).map
        (fun i => ((levelsFrom o.logLevel).getD i 0,
          fun lvl => lvl == (levelsFrom o.logLevel).getD i 0)) := hlp
    obtain ⟨hb1, hb2, _⟩ := EnableLevels_mem_inv o.logLevel _ hEL lp.1 lp.2 hmem
    refine ⟨lp.1, hb1, hb2, ?_⟩
    subst hceq
    rfl
  refine ⟨((List.range (levelsFrom o.logLevel).length).map
      (fun i => ((levelsFrom o.logLevel).getD i 0,
        fun lvl => lvl == (levelsFrom o.logLevel).getD i 0))).map
      (fun lp => (⟨EncoderKind.json,
        Destination.rotatingFile (filePattern o podName lp.1),
        fun _ lvl => lp.2 lvl⟩ : SinkCore)), ?_, ?_, ?_⟩
  · rw [NewLoggerCore_prod_allOk o podName hp hd, hEL]
    rfl
  · intro c hc
    obtain ⟨s, hs1, hs2, hdest⟩ := hmemkey c hc
    exact ⟨s, hs1, hs2, hdest⟩
  · intro hpod c hc
    obtain ⟨s, hs1, hs2, hdest⟩ := hmemkey c hc
    refine ⟨s, ?_⟩
    rw [hdest, hpod]
    unfold filePattern
    rw [filepathJoin_empty_segment]

/-- Claim C7 witness: production configuration with the pod environment
variable absent. -/
theorem production_file_paths_witness :
    ∃ cores,
      NewLoggerCore (applyOptions [WithLogPath "/logs", WithServiceName "svc"])
        "" (fun _ => true) (fun _ => true) =
        some (cores,
          (applyOptions [WithLogPath "/logs", WithServiceName "svc"]).logLevel) ∧
      (∀ c ∈ cores, ∃ s,
        (applyOptions [WithLogPath "/logs", WithServiceName "svc"]).logLevel ≤ s ∧
        s ≤ maxLevel ∧
        c.dest = Destination.rotatingFile
          (filepathJoin [(applyOptions [WithLogPath "/logs",
              WithServiceName "svc"]).logPath, "",
            (applyOptions [WithLogPath "/logs",
              WithServiceName "svc"]).serviceName,
            levelString s ++ ".%Y-%m-%d.log"])) ∧
      ("" = "" → ∀ c ∈ cores, ∃ s,
        c.dest = Destination.rotatingFile
          (filepathJoin [(applyOptions [WithLogPath "/logs",
              WithServiceName "svc"]).logPath,
            (applyOptions [WithLogPath "/logs",
              WithServiceName "svc"]).serviceName,
            levelString s ++ ".%Y-%m-%d.log"])) :=
  production_file_paths
    (applyOptions [WithLogPath "/logs", WithServiceName "svc"]) ""
    (by decide) rfl (by decide) (by decide)

/-- Claim C8: the first `InitLogger` call constructs the logger, installs it
together with the sugared logger and the atomic level, and marks the once
guard; any later call — with any options whatsoever — returns the installed
state unchanged. -/
theorem InitLogger_idempotent (opts1 opts2 : List LogOption)
    (pod1 pod2 : String) (mk1 rot1 mk2 rot2 : String → Bool)
    (st st1 : PackageState) (hfirst : st.onceDone = false)
    (h1 : InitLogger opts1 pod1 mk1 rot1 st = some st1) :
    st1.onceDone = true ∧
    (∃ cores lvl, NewLogger opts1 pod1 mk1 rot1 = some (cores, lvl) ∧
      st1.logger = some cores ∧ st1.sugaredLogger = some cores ∧
      st1.atomicLevel = lvl) ∧
    InitLogger opts2 pod2 mk2 rot2 st1 = some st1 := by
  unfold InitLogger at h1
  rw [hfirst] at h1
  simp only [Bool.false_eq_true, if_false] at h1
  cases hN : NewLogger opts1 pod1 mk1 rot1 with
  | none =>
    rw [hN] at h1
    cases h1
  | some pr =>
    obtain ⟨cores, lvl⟩ := pr
    rw [hN] at h1
    have hst1 : st1 =
        (⟨true, some cores, some cores, lvl⟩ : PackageState) :=
      (Option.some.inj h1).symm
    subst hst1
    refine ⟨rfl, ⟨cores, lvl, rfl, rfl, rfl, rfl⟩, ?_⟩
    unfold InitLogger
    simp

/-- Claim C8 witness: a first call from the uninitialized state followed by a
second call with different options. -/
theorem InitLogger_idempotent_witness :
    ((⟨true, some [consoleCore], some [consoleCore], DebugLevel⟩ :
        PackageState)).onceDone = true ∧
    (∃ cores lvl, NewLogger [] "x" (fun _ => true) (fun _ => true) =
        some (cores, lvl) ∧
      ((⟨true, some [consoleCore], some [consoleCore], DebugLevel⟩ :
          PackageState)).logger = some cores ∧
      ((⟨true, some [consoleCore], some [consoleCore], DebugLevel⟩ :
          PackageState)).sugaredLogger = some cores ∧
      ((⟨true, some [consoleCore], some [consoleCore], DebugLevel⟩ :
          PackageState)).atomicLevel = lvl) ∧
    InitLogger [Development] "y" (fun _ => false) (fun _ => false)
      (⟨true, some [consoleCore], some [consoleCore], DebugLevel⟩ :
        PackageState) =
      some (⟨true, some [consoleCore], some [consoleCore], DebugLevel⟩ :
        PackageState) :=
  InitLogger_idempotent [] [Development] "x" "y"
    (fun _ => true) (fun _ => true) (fun _ => false) (fun _ => false)
    (⟨false, none, none, InfoLevel⟩ : PackageState)
    (⟨true, some [consoleCore], some [consoleCore], DebugLevel⟩ : PackageState)
    rfl rfl

/-- Claim C9: in production mode, if directory creation fails, or if
rotating-file-writer creation fails for any enabled level, `NewLogger` panics
(modelled `none`): no logger value is produced. -/
theorem NewLogger_aborts_on_io_failure (o : logOptions) (podName : String)
    (mkdirOk rotateOk : String → Bool)
    (hp : o.logPath ≠ "") (hd : o.development = false) :
    (mkdirOk (logDir o podName) = false →
      NewLoggerCore o podName mkdirOk rotateOk = none) ∧
    (∀ m, EnableLevels o.logLevel = some m →
      (∃ lp ∈ m, rotateOk (filePattern o podName lp.1) = false) →
      NewLoggerCore o podName mkdirOk rotateOk = none) := by
  constructor
  · intro hmk
    cases hN : NewLoggerCore o podName mkdirOk rotateOk with
    | none => rfl
    | some pr =>
      obtain ⟨cores, lvl0⟩ := pr
      obtain ⟨hlvl, m, hEL, hbuild⟩ :=
        NewLoggerCore_prod_inv o podName mkdirOk rotateOk cores lvl0 hp hd hN
      have hne := EnableLevels_some_ne_nil o.logLevel m hEL
      obtain ⟨hinvmk, _, _⟩ :=
        buildFileCores_some_inv o podName mkdirOk rotateOk m cores hbuild
      rw [hinvmk hne] at hmk
      cases hmk
  · rintro m hEL ⟨lp, hlp, hrot⟩
    cases hN : NewLoggerCore o podName mkdirOk rotateOk with
    | none => rfl
    | some pr =>
      obtain ⟨cores, lvl0⟩ := pr
      obtain ⟨hlvl, m', hEL', hbuild⟩ :=
        NewLoggerCore_prod_inv o podName mkdirOk rotateOk cores lvl0 hp hd hN
      rw [hEL] at hEL'
      have hm : m = m' := Option.some.inj hEL'
      subst hm
      obtain ⟨_, hinvrot, _⟩ :=
        buildFileCores_some_inv o podName mkdirOk rotateOk m cores hbuild
      rw [hinvrot lp hlp] at hrot
      cases hrot

/-- Claim C9 witness: directory creation failing at a concrete production
configuration. -/
theorem NewLogger_aborts_on_io_failure_witness :
    NewLoggerCore (applyOptions [WithLogPath "/logs", WithServiceName "svc"])
      "pod" (fun _ => false) (fun _ => true) = none :=
  (NewLogger_aborts_on_io_failure
      (applyOptions [WithLogPath "/logs", WithServiceName "svc"]) "pod"
      (fun _ => false) (fun _ => true) (by decide) rfl).1 rfl

/-- Claim C10: `NewLogger` computes its configuration by folding the supplied
options, in argument order, over a fresh copy of the package defaults: an
empty option list yields exactly the defaults; appending an option applies it
last, so for any field the last-applied setter wins; each `With*` constructor
writes only its own field; and `defaultLogOptions` itself is a constant the
fold never alters, so one construction cannot leak configuration into a
later one. -/
theorem NewLogger_options_fresh_copy :
    applyOptions [] = defaultLogOptions ∧
    (∀ opts (f : LogOption), applyOptions (opts ++ [f]) = f (applyOptions opts)) ∧
    (∀ opts podName mkdirOk rotateOk, NewLogger opts podName mkdirOk rotateOk =
      NewLoggerCore (applyOptions opts) podName mkdirOk rotateOk) ∧
    (∀ opts s, (applyOptions (opts ++ [WithServiceName s])).serviceName = s) ∧
    (∀ opts p, (applyOptions (opts ++ [WithLogPath p])).logPath = p) ∧
    (∀ opts l, (applyOptions (opts ++ [WithLogLevel l])).logLevel = l) ∧
    (∀ opts d,
      (applyOptions (opts ++ [WithFileRotateMaxAge d])).fileRotateMaxAge = d) ∧
    (∀ opts d,
      (applyOptions (opts ++ [WithFileRotationTime d])).fileRotationTime = d) ∧
    (∀ opts, (applyOptions (opts ++ [Development])).development = true) ∧
    (∀ o s, (WithServiceName s o).logPath = o.logPath ∧
      (WithServiceName s o).fileRotateMaxAge = o.fileRotateMaxAge ∧
      (WithServiceName s o).fileRotationTime = o.fileRotationTime ∧
      (WithServiceName s o).logLevel = o.logLevel ∧
      (WithServiceName s o).development = o.development) ∧
    (∀ o p, (WithLogPath p o).serviceName = o.serviceName ∧
      (WithLogPath p o).fileRotateMaxAge = o.fileRotateMaxAge ∧
      (WithLogPath p o).fileRotationTime = o.fileRotationTime ∧
      (WithLogPath p o).logLevel = o.logLevel ∧
      (WithLogPath p o).development = o.development) ∧
    (∀ o l, (WithLogLevel l o).serviceName = o.serviceName ∧
      (WithLogLevel l o).logPath = o.logPath ∧
      (WithLogLevel l o).fileRotateMaxAge = o.fileRotateMaxAge ∧
      (WithLogLevel l o).fileRotationTime = o.fileRotationTime ∧
      (WithLogLevel l o).development = o.development) ∧
    (∀ o d, (WithFileRotateMaxAge d o).serviceName = o.serviceName ∧
      (WithFileRotateMaxAge d o).logPath = o.logPath ∧
      (WithFileRotateMaxAge d o).fileRotationTime = o.fileRotationTime ∧
      (WithFileRotateMaxAge d o).logLevel = o.logLevel ∧
      (WithFileRotateMaxAge d o).development = o.development) ∧
    (∀ o d, (WithFileRotationTime d o).serviceName = o.serviceName ∧
      (WithFileRotationTime d o).logPath = o.logPath ∧
      (WithFileRotationTime d o).fileRotateMaxAge = o.fileRotateMaxAge ∧
      (WithFileRotationTime d o).logLevel = o.logLevel ∧
      (WithFileRotationTime d o).development = o.development) ∧
    (∀ o, (Development o).serviceName = o.serviceName ∧
      (Development o).logPath = o.logPath ∧
      (Development o).fileRotateMaxAge = o.fileRotateMaxAge ∧
      (Development o).fileRotationTime = o.fileRotationTime ∧
      (Development o).logLevel = o.logLevel) := by
  have happ : ∀ opts (f : LogOption),
      applyOptions (opts ++ [f]) = f (applyOptions opts) := by
    intro opts f
    simp [applyOptions, List.foldl_append]
  refine ⟨rfl, happ, fun _ _ _ _ => rfl, ?_, ?_, ?_, ?_, ?_, ?_,
    fun o s => ⟨rfl, rfl, rfl, rfl, rfl⟩,
    fun o p => ⟨rfl, rfl, rfl, rfl, rfl⟩,
    fun o l => ⟨rfl, rfl, rfl, rfl, rfl⟩,
    fun o d => ⟨rfl, rfl, rfl, rfl, rfl⟩,
    fun o d => ⟨rfl, rfl, rfl, rfl, rfl⟩,
    fun o => ⟨rfl, rfl, rfl, rfl, rfl⟩⟩
  · intro opts s
    rw [happ]
    rfl
  · intro opts p
    rw [happ]
    rfl
  · intro opts l
    rw [happ]
    rfl
  · intro opts d
    rw [happ]
    rfl
  · intro opts d
    rw [happ]
    rfl
  · intro opts
    rw [happ]
    rfl

end Zaplog
